import Mathlib

/-!
# Verification of the BioMedICUS deployment supervisor

A shallow embedding of the function `deploy` in
`biomedicus/deployment/deploy_biomedicus.py` together with its nested
interrupt handler `handler`, and proofs of trace and exit-status
properties of runs of the supervisor.

The Python function is single-threaded apart from the per-process output
listener threads and the asynchronous SIGINT handler, which always runs
on the main thread at an interruption point of the main control flow.  A
run of `deploy` is therefore modelled as a deterministic function of a
run *schedule* (`Env`): which `Popen` calls succeed, which services
become gRPC-ready within the 20 second probe timeout, at which points of
the main control flow a SIGINT is delivered, and which listener threads
finish within the 5 second join grace period.  The observable behaviour
of a run is a trace of `Action`s plus an exit status.

Correspondence to the source (line numbers of
`deploy_biomedicus.py`):

* `ServiceCall` — one element of the `calls` list (lines 90-108), with
  the command line already fully extended (lines 110-115).
* `handlerActions` — the body of `handler` (lines 129-138): print the
  banner, `p.send_signal(SIGINT)` for every process, `future.cancel()`
  when `future is not None`, `listener.join(timeout=5)` for every
  listener, `e.set()`.
* `spawnLoop` — the spawn loop (lines 118-123): `Popen` plus listener
  thread per call; a `Popen` exception propagates out of `deploy`
  immediately (there is no handler installed yet and no try block).
* `probeLoop` — the readiness loop (lines 142-150): per call, if
  `shutting_down` is not set, create a channel-ready future for
  `127.0.0.1:port` and wait on it with `timeout=20`.  A
  `grpc.FutureTimeoutError` is caught: the diagnostic is printed and
  `handler(None, None)` is invoked inline.  If a SIGINT is delivered
  while the wait is in flight, `handler` runs (cancelling the future)
  and the resumed `future.result` call then raises
  `grpc.FutureCancelledError`, which the `except grpc.FutureTimeoutError`
  clause does not catch, so it propagates out of `deploy`.
* `runDeploy` — `deploy` from line 116 on: spawn everything, install the
  handler, drive the probe loop, print the completion banner, `e.wait()`,
  print the shutdown banner, return (exit status 0).
-/

namespace DeployBiomedicus

/-- One entry of the `calls` list built by `deploy`: the (fully
extended) command line of a worker process and the port the service is
launched on. -/
structure ServiceCall where
  command : List String
  port : String
  deriving DecidableEq, Repr

/-- The schedule of one run of `deploy`: for every index into `calls`,
whether the `Popen` call succeeds, whether the service becomes
gRPC-ready within the 20 second probe timeout, and whether a SIGINT is
delivered while the readiness wait for that service is in flight; plus
whether a SIGINT is delivered between the probe loop and `e.wait()`,
whether one is delivered while `e.wait()` is blocking, and whether each
listener thread finishes within the 5 second join grace period. -/
structure Env where
  calls : List ServiceCall
  spawnOk : Nat → Bool
  ready : Nat → Bool
  intrDuringProbe : Nat → Bool
  intrAfterLoop : Bool
  intrDuringWait : Bool
  relayFinishes : Nat → Bool

/-- Observable actions of a run of `deploy`.  Print actions carry
exactly the data the source interpolates into the message. -/
inductive Action where
  | spawn (i : Nat)
  | startRelay (i : Nat)
  | probe (address : String) (timeout : Nat)
  | printFailedToLaunch (command : List String)
  | printShuttingDown
  | sendSigint (i : Nat)
  | cancelFuture
  | joinRelay (i : Nat) (graceTimeout : Nat) (finished : Bool)
  | setEvent
  | printDoneStarting
  | printDoneShuttingDown
  | raiseFutureCancelled
  deriving DecidableEq, Repr

/-- The mutable state of `deploy` shared with `handler`: the
`shutting_down[0]` flag, whether `future` has been assigned (is not
`None`), whether the event `e` has been set, and whether an uncaught
exception is propagating out of the probe loop. -/
structure LoopSt where
  shuttingDown : Bool
  futureSet : Bool
  eventSet : Bool
  crashed : Bool
  deriving DecidableEq, Repr

/-- How a run of `deploy` ends: a normal return (process exit status 0),
an uncaught exception (non-zero exit status), or blocking forever in
`e.wait()` (the steady state when every service is up and no interrupt
ever arrives). -/
inductive ExitStatus where
  | ok
  | exn
  | blocked
  deriving DecidableEq, Repr

/-- Result of a run: the action trace, how the run ended, and the final
shared state. -/
structure RunResult where
  trace : List Action
  exit : ExitStatus
  final : LoopSt
  deriving Repr

/-- The actions of one execution of `handler` (lines 129-138): banner,
SIGINT to every process, `future.cancel()` when a future exists, a
5-second-bounded join of every listener thread, then `e.set()`. -/
def handlerActions (env : Env) (futureSet : Bool) : List Action :=
  let n := env.calls.length
  Action.printShuttingDown ::
    ((List.range n).map Action.sendSigint
      ++ (if futureSet then [Action.cancelFuture] else [])
      ++ (List.range n).map (fun i => Action.joinRelay i 5 (env.relayFinishes i))
      ++ [Action.setEvent])

/-- Pair every launch-plan entry with its index, starting at a given
offset. -/
def planEnum : Nat → List ServiceCall → List (Nat × ServiceCall)
  | _, [] => []
  | k, c :: cs => (k, c) :: planEnum (k + 1) cs

/-- The spawn loop (lines 118-123): `Popen` each call and start its
listener thread.  A failing `Popen` raises; the exception propagates
(second component `false`) and the remaining calls are never spawned. -/
def spawnLoop (env : Env) : List (Nat × ServiceCall) → List Action × Bool
  | [] => ([], true)
  | (i, _) :: rest =>
    if env.spawnOk i then
      let r := spawnLoop env rest
      (Action.spawn i :: Action.startRelay i :: r.1, r.2)
    else ([], false)

/-- The actions of a fully successful spawn phase. -/
def spawnActsOf (env : Env) : List Action :=
  (planEnum 0 env.calls).flatMap fun p => [Action.spawn p.1, Action.startRelay p.1]

/-- The readiness probe of one service (line 144-147): a channel-ready
wait on `127.0.0.1:port` bounded by 20 seconds. -/
def probeAddr (c : ServiceCall) : Action :=
  Action.probe ("127.0.0.1:" ++ c.port) 20

/-- The readiness loop (lines 142-150).  Per entry: skip when
`shutting_down` is set; otherwise wait on the channel-ready future.  A
SIGINT in flight runs `handler` and the resumed wait raises an uncaught
`grpc.FutureCancelledError` (the run crashes).  A timeout prints the
diagnostic and runs `handler` inline, after which the loop continues
(and skips every later entry). -/
def probeLoop (env : Env) : List (Nat × ServiceCall) → LoopSt → List Action × LoopSt
  | [], s => ([], s)
  | (i, c) :: rest, s =>
    if s.shuttingDown then probeLoop env rest s
    else if env.intrDuringProbe i then
      (probeAddr c :: (handlerActions env true ++ [Action.raiseFutureCancelled]),
        ⟨true, true, true, true⟩)
    else if env.ready i then
      let r := probeLoop env rest ⟨false, true, s.eventSet, s.crashed⟩
      (probeAddr c :: r.1, r.2)
    else
      let r := probeLoop env rest ⟨true, true, true, false⟩
      (probeAddr c :: Action.printFailedToLaunch c.command :: (handlerActions env true ++ r.1),
        r.2)

/-- Initial shared state: not shutting down, `future = None`, event `e`
unset. -/
def initSt : LoopSt := ⟨false, false, false, false⟩

/-- One run of `deploy` from line 116 on, as a function of its
schedule. -/
def runDeploy (env : Env) : RunResult :=
  let plan := planEnum 0 env.calls
  let sp := spawnLoop env plan
  if sp.2 then
    let pl := probeLoop env plan initSt
    let s := pl.2
    if s.crashed then ⟨sp.1 ++ pl.1, ExitStatus.exn, s⟩
    else
      let a2 : List Action := if env.intrAfterLoop then handlerActions env s.futureSet else []
      let s2 : LoopSt := if env.intrAfterLoop then ⟨true, s.futureSet, true, s.crashed⟩ else s
      let acts := sp.1 ++ pl.1 ++ a2 ++ [Action.printDoneStarting]
      if s2.eventSet then
        ⟨acts ++ [Action.printDoneShuttingDown], ExitStatus.ok, s2⟩
      else if env.intrDuringWait then
        ⟨acts ++ handlerActions env s2.futureSet ++ [Action.printDoneShuttingDown],
          ExitStatus.ok, ⟨true, s2.futureSet, true, s2.crashed⟩⟩
      else
        ⟨acts, ExitStatus.blocked, s2⟩
  else ⟨sp.1, ExitStatus.exn, initSt⟩

/-- Recognizer for probe actions. -/
def isProbe : Action → Bool
  | Action.probe _ _ => true
  | _ => false

/-- Recognizer for the supervisor's own print actions (every message
`deploy` or `handler` writes itself, as opposed to relayed child
output). -/
def isPrint : Action → Bool
  | Action.printFailedToLaunch _ => true
  | Action.printShuttingDown => true
  | Action.printDoneStarting => true
  | Action.printDoneShuttingDown => true
  | _ => false

/-- Recognizer for process-creation actions. -/
def isSpawnAct : Action → Bool
  | Action.spawn _ => true
  | _ => false

/-- Recognizer for listener-thread-creation actions. -/
def isRelayAct : Action → Bool
  | Action.startRelay _ => true
  | _ => false

/-- Number of occurrences of an action in a trace. -/
def countAct (a : Action) : List Action → Nat
  | [] => 0
  | b :: l => (if b = a then 1 else 0) + countAct a l

/-! ## Basic lemmas about the embedding's list utilities -/

theorem countAct_append (a : Action) :
    ∀ l1 l2 : List Action, countAct a (l1 ++ l2) = countAct a l1 + countAct a l2
  | [], l2 => by simp [countAct]
  | b :: l1, l2 => by
    have h := countAct_append a l1 l2
    simp only [List.cons_append, countAct, List.append_eq] at h ⊢
    omega

theorem countAct_map_zero {α : Type} (a : Action) (f : α → Action)
    (h : ∀ x, f x ≠ a) : ∀ l : List α, countAct a (l.map f) = 0
  | [] => by simp [countAct]
  | x :: l => by simp [countAct, h x, countAct_map_zero a f h l]

theorem filter_map_nil {α : Type} (p : Action → Bool) (f : α → Action)
    (h : ∀ x, p (f x) = false) : ∀ l : List α, (l.map f).filter p = []
  | [] => by simp
  | x :: l => by simp [List.filter_cons, h x, filter_map_nil p f h l]

theorem filter_map_self {α : Type} (p : Action → Bool) (f : α → Action)
    (h : ∀ x, p (f x) = true) : ∀ l : List α, (l.map f).filter p = l.map f
  | [] => by simp
  | x :: l => by simp [List.filter_cons, h x, filter_map_self p f h l]

theorem planEnum_append : ∀ (xs : List ServiceCall) (k : Nat) (ys : List ServiceCall),
    planEnum k (xs ++ ys) = planEnum k xs ++ planEnum (k + xs.length) ys
  | [], k, ys => by simp [planEnum]
  | x :: xs, k, ys => by
    have h : k + 1 + xs.length = k + (x :: xs).length := by
      simp only [List.length_cons]; omega
    rw [List.cons_append]
    simp only [planEnum]
    rw [planEnum_append xs (k + 1) ys, h, List.cons_append]

theorem mem_planEnum : ∀ (xs : List ServiceCall) (k : Nat) (p : Nat × ServiceCall),
    p ∈ planEnum k xs → k ≤ p.1 ∧ p.1 < k + xs.length
  | [], _, _, h => by simp [planEnum] at h
  | x :: xs, k, p, h => by
    simp only [planEnum, List.mem_cons] at h
    rcases h with h | h
    · subst h
      simp only [List.length_cons]
      exact ⟨Nat.le_refl k, by omega⟩
    · have := mem_planEnum xs (k + 1) p h
      simp only [List.length_cons]
      omega

theorem map_planEnum {β : Type} (f : ServiceCall → β) :
    ∀ (xs : List ServiceCall) (k : Nat),
      (planEnum k xs).map (fun p => f p.2) = xs.map f
  | [], _ => rfl
  | x :: xs, k => by simp [planEnum, map_planEnum f xs (k + 1)]

theorem plan_decomp (cs : List ServiceCall) (i : Nat) (h : i < cs.length) :
    planEnum 0 cs =
      planEnum 0 (cs.take i) ++ (i, cs.get ⟨i, h⟩) :: planEnum (i + 1) (cs.drop (i + 1)) := by
  conv_lhs => rw [← List.take_append_drop i cs]
  rw [planEnum_append]
  have hlen : (cs.take i).length = i := by
    simp [List.length_take, Nat.min_eq_left (Nat.le_of_lt h)]
  rw [hlen, Nat.zero_add]
  have hdrop : cs.drop i = cs.get ⟨i, h⟩ :: cs.drop (i + 1) := by
    rw [List.drop_eq_getElem_cons h]
    simp [List.get_eq_getElem]
  rw [hdrop]
  rfl

/-! ## Lemmas about the spawn phase -/

theorem spawnLoop_ok (env : Env) :
    ∀ l : List (Nat × ServiceCall), (∀ p ∈ l, env.spawnOk p.1 = true) →
      spawnLoop env l = (l.flatMap fun p => [Action.spawn p.1, Action.startRelay p.1], true)
  | [], _ => rfl
  | (i, c) :: rest, h => by
    have hi : env.spawnOk i = true := h (i, c) (List.mem_cons_self _ _)
    have hr := spawnLoop_ok env rest (fun p hp => h p (List.mem_cons_of_mem _ hp))
    simp [spawnLoop, hi, hr]

theorem spawnLoop_fail (env : Env) :
    ∀ (pre : List (Nat × ServiceCall)) (i : Nat) (c : ServiceCall)
      (post : List (Nat × ServiceCall)),
      (∀ p ∈ pre, env.spawnOk p.1 = true) → env.spawnOk i = false →
      spawnLoop env (pre ++ (i, c) :: post) =
        (pre.flatMap fun p => [Action.spawn p.1, Action.startRelay p.1], false)
  | [], i, c, post, _, hfail => by simp [spawnLoop, hfail]
  | (j, d) :: pre, i, c, post, hpre, hfail => by
    have hj : env.spawnOk j = true := hpre (j, d) (List.mem_cons_self _ _)
    have hr := spawnLoop_fail env pre i c post
      (fun p hp => hpre p (List.mem_cons_of_mem _ hp)) hfail
    simp [spawnLoop, hj, hr]

/-! ## Lemmas about the probe loop -/

theorem probeLoop_shutdown (env : Env) :
    ∀ (l : List (Nat × ServiceCall)) (s : LoopSt), s.shuttingDown = true →
      probeLoop env l s = ([], s)
  | [], _, _ => rfl
  | (i, c) :: rest, s, h => by
    simp [probeLoop, h, probeLoop_shutdown env rest s h]

theorem probeLoop_all_ready (env : Env) :
    ∀ (l : List (Nat × ServiceCall)) (fs es : Bool),
      (∀ p ∈ l, env.ready p.1 = true ∧ env.intrDuringProbe p.1 = false) →
      probeLoop env l ⟨false, fs, es, false⟩ =
        (l.map fun p => probeAddr p.2, ⟨false, fs || !l.isEmpty, es, false⟩)
  | [], fs, es, _ => by simp [probeLoop]
  | (i, c) :: rest, fs, es, h => by
    have hi := h (i, c) (List.mem_cons_self _ _)
    have hr := probeLoop_all_ready env rest true es
      (fun p hp => h p (List.mem_cons_of_mem _ hp))
    simp [probeLoop, hi.1, hi.2, hr]

theorem probeLoop_first_timeout (env : Env) :
    ∀ (pre : List (Nat × ServiceCall)) (i : Nat) (c : ServiceCall)
      (post : List (Nat × ServiceCall)) (fs es : Bool),
      (∀ p ∈ pre, env.ready p.1 = true ∧ env.intrDuringProbe p.1 = false) →
      env.intrDuringProbe i = false → env.ready i = false →
      probeLoop env (pre ++ (i, c) :: post) ⟨false, fs, es, false⟩ =
        ((pre.map fun p => probeAddr p.2) ++
            probeAddr c :: Action.printFailedToLaunch c.command :: handlerActions env true,
          ⟨true, true, true, false⟩)
  | [], i, c, post, fs, es, _, hintr, hready => by
    simp [probeLoop, hintr, hready, probeLoop_shutdown env post ⟨true, true, true, false⟩ rfl]
  | (j, d) :: pre, i, c, post, fs, es, hpre, hintr, hready => by
    have hj := hpre (j, d) (List.mem_cons_self _ _)
    have hr := probeLoop_first_timeout env pre i c post true es
      (fun p hp => hpre p (List.mem_cons_of_mem _ hp)) hintr hready
    simp [probeLoop, hj.1, hj.2, hr]

theorem probeLoop_first_intr (env : Env) :
    ∀ (pre : List (Nat × ServiceCall)) (i : Nat) (c : ServiceCall)
      (post : List (Nat × ServiceCall)) (fs es : Bool),
      (∀ p ∈ pre, env.ready p.1 = true ∧ env.intrDuringProbe p.1 = false) →
      env.intrDuringProbe i = true →
      probeLoop env (pre ++ (i, c) :: post) ⟨false, fs, es, false⟩ =
        ((pre.map fun p => probeAddr p.2) ++
            probeAddr c :: (handlerActions env true ++ [Action.raiseFutureCancelled]),
          ⟨true, true, true, true⟩)
  | [], i, c, post, fs, es, _, hintr => by simp [probeLoop, hintr]
  | (j, d) :: pre, i, c, post, fs, es, hpre, hintr => by
    have hj := hpre (j, d) (List.mem_cons_self _ _)
    have hr := probeLoop_first_intr env pre i c post true es
      (fun p hp => hpre p (List.mem_cons_of_mem _ hp)) hintr
    simp [probeLoop, hj.1, hj.2, hr]

theorem probeLoop_no_crash (env : Env) :
    ∀ (l : List (Nat × ServiceCall)) (s : LoopSt),
      (∀ p ∈ l, env.intrDuringProbe p.1 = false) → s.crashed = false →
      (probeLoop env l s).2.crashed = false
  | [], s, _, hs => hs
  | (i, c) :: rest, s, h, hs => by
    have hi : env.intrDuringProbe i = false := h (i, c) (List.mem_cons_self _ _)
    have hr := fun s' hs' => probeLoop_no_crash env rest s'
      (fun p hp => h p (List.mem_cons_of_mem _ hp)) hs'
    by_cases hsd : s.shuttingDown = true
    · simp [probeLoop, hsd, hr s hs]
    · simp only [Bool.not_eq_true] at hsd
      by_cases hready : env.ready i = true
      · simp [probeLoop, hsd, hi, hready, hr ⟨false, true, s.eventSet, s.crashed⟩ hs]
      · simp only [Bool.not_eq_true] at hready
        simp [probeLoop, hsd, hi, hready, hr ⟨true, true, true, false⟩ rfl]

theorem countAct_eq_zero_of_not_mem {a : Action} :
    ∀ {l : List Action}, a ∉ l → countAct a l = 0
  | [], _ => rfl
  | b :: l, h => by
    have hb : b ≠ a := fun hba => h (hba ▸ List.mem_cons_self b l)
    have hl : a ∉ l := fun hm => h (List.mem_cons_of_mem b hm)
    simp [countAct, hb, countAct_eq_zero_of_not_mem hl]

theorem length_planEnum : ∀ (xs : List ServiceCall) (k : Nat),
    (planEnum k xs).length = xs.length
  | [], _ => rfl
  | _ :: xs, k => by simp [planEnum, length_planEnum xs (k + 1)]

/-! ## Shape lemmas about the handler's action block -/

theorem countAct_sigint_range (i : Nat) : ∀ n : Nat,
    countAct (Action.sendSigint i) ((List.range n).map Action.sendSigint) =
      if i < n then 1 else 0
  | 0 => by simp [countAct]
  | n + 1 => by
    rw [List.range_succ, List.map_append, countAct_append, countAct_sigint_range i n]
    simp only [List.map_cons, List.map_nil, countAct, Action.sendSigint.injEq, Nat.add_zero]
    split_ifs <;> omega

theorem handler_count_sigint (env : Env) (fs : Bool) (i : Nat)
    (h : i < env.calls.length) :
    countAct (Action.sendSigint i) (handlerActions env fs) = 1 := by
  simp only [handlerActions, countAct, countAct_append]
  rw [countAct_sigint_range]
  have hz1 : countAct (Action.sendSigint i)
      ((List.range env.calls.length).map fun j => Action.joinRelay j 5 (env.relayFinishes j)) = 0 :=
    countAct_map_zero _ _ (fun x => by simp) _
  rw [hz1]
  by_cases hfs : fs = true <;> simp [hfs, countAct, h]

theorem handler_count_banner (env : Env) (fs : Bool) :
    countAct Action.printShuttingDown (handlerActions env fs) = 1 := by
  simp only [handlerActions, countAct, countAct_append]
  have hz1 : countAct Action.printShuttingDown
      ((List.range env.calls.length).map Action.sendSigint) = 0 :=
    countAct_map_zero _ _ (fun x => by simp) _
  have hz2 : countAct Action.printShuttingDown
      ((List.range env.calls.length).map fun j => Action.joinRelay j 5 (env.relayFinishes j)) = 0 :=
    countAct_map_zero _ _ (fun x => by simp) _
  rw [hz1, hz2]
  by_cases hfs : fs = true <;> simp [hfs, countAct]

theorem handler_filter_isPrint (env : Env) (fs : Bool) :
    (handlerActions env fs).filter isPrint = [Action.printShuttingDown] := by
  simp only [handlerActions, List.filter_cons, List.filter_append]
  rw [filter_map_nil isPrint Action.sendSigint (fun x => rfl),
    filter_map_nil isPrint (fun j => Action.joinRelay j 5 (env.relayFinishes j)) (fun x => rfl)]
  by_cases hfs : fs = true <;> simp [hfs, isPrint, List.filter_cons]

theorem handler_filter_isProbe (env : Env) (fs : Bool) :
    (handlerActions env fs).filter isProbe = [] := by
  simp only [handlerActions, List.filter_cons, List.filter_append]
  rw [filter_map_nil isProbe Action.sendSigint (fun x => rfl),
    filter_map_nil isProbe (fun j => Action.joinRelay j 5 (env.relayFinishes j)) (fun x => rfl)]
  by_cases hfs : fs = true <;> simp [hfs, isProbe, List.filter_cons]

theorem handler_filter_isSpawnAct (env : Env) (fs : Bool) :
    (handlerActions env fs).filter isSpawnAct = [] := by
  simp only [handlerActions, List.filter_cons, List.filter_append]
  rw [filter_map_nil isSpawnAct Action.sendSigint (fun x => rfl),
    filter_map_nil isSpawnAct (fun j => Action.joinRelay j 5 (env.relayFinishes j)) (fun x => rfl)]
  by_cases hfs : fs = true <;> simp [hfs, isSpawnAct, List.filter_cons]

theorem handler_filter_isRelayAct (env : Env) (fs : Bool) :
    (handlerActions env fs).filter isRelayAct = [] := by
  simp only [handlerActions, List.filter_cons, List.filter_append]
  rw [filter_map_nil isRelayAct Action.sendSigint (fun x => rfl),
    filter_map_nil isRelayAct (fun j => Action.joinRelay j 5 (env.relayFinishes j)) (fun x => rfl)]
  by_cases hfs : fs = true <;> simp [hfs, isRelayAct, List.filter_cons]

theorem handler_no_doneStarting (env : Env) (fs : Bool) :
    Action.printDoneStarting ∉ handlerActions env fs := by
  cases fs <;> simp [handlerActions]

theorem handler_no_doneShuttingDown (env : Env) (fs : Bool) :
    Action.printDoneShuttingDown ∉ handlerActions env fs := by
  cases fs <;> simp [handlerActions]

theorem handler_no_failed (env : Env) (fs : Bool) (cmd : List String) :
    Action.printFailedToLaunch cmd ∉ handlerActions env fs := by
  cases fs <;> simp [handlerActions]

/-! ## Purity lemmas about the spawn phase trace -/

theorem spawnLoop_mem (env : Env) :
    ∀ (l : List (Nat × ServiceCall)) (a : Action), a ∈ (spawnLoop env l).1 →
      (∃ i, a = Action.spawn i) ∨ ∃ i, a = Action.startRelay i
  | [], a, h => by simp [spawnLoop] at h
  | (i, c) :: rest, a, h => by
    by_cases hsp : env.spawnOk i = true
    · simp only [spawnLoop, hsp, if_true, List.mem_cons] at h
      rcases h with h | h | h
      · exact Or.inl ⟨i, h⟩
      · exact Or.inr ⟨i, h⟩
      · exact spawnLoop_mem env rest a h
    · simp only [Bool.not_eq_true] at hsp
      simp [spawnLoop, hsp] at h

theorem spawnActsOf_mem (env : Env) (a : Action) (h : a ∈ spawnActsOf env) :
    (∃ i, a = Action.spawn i) ∨ ∃ i, a = Action.startRelay i := by
  simp only [spawnActsOf, List.mem_flatMap] at h
  rcases h with ⟨p, _, hp⟩
  simp only [List.mem_cons, List.mem_singleton] at hp
  rcases hp with hp | hp | hp
  · exact Or.inl ⟨p.1, hp⟩
  · exact Or.inr ⟨p.1, hp⟩
  · simp at hp

theorem spawnActs_filter_spawn :
    ∀ l : List (Nat × ServiceCall),
      ((l.flatMap fun p => [Action.spawn p.1, Action.startRelay p.1]).filter isSpawnAct) =
        l.map fun p => Action.spawn p.1
  | [] => rfl
  | p :: l => by
    simp [List.flatMap_cons, List.filter_append, List.filter_cons, isSpawnAct,
      spawnActs_filter_spawn l]

theorem spawnActs_filter_relay :
    ∀ l : List (Nat × ServiceCall),
      ((l.flatMap fun p => [Action.spawn p.1, Action.startRelay p.1]).filter isRelayAct) =
        l.map fun p => Action.startRelay p.1
  | [] => rfl
  | p :: l => by
    simp [List.flatMap_cons, List.filter_append, List.filter_cons, isRelayAct,
      spawnActs_filter_relay l]

theorem spawnActs_filter_isProbe :
    ∀ l : List (Nat × ServiceCall),
      ((l.flatMap fun p => [Action.spawn p.1, Action.startRelay p.1]).filter isProbe) = []
  | [] => rfl
  | p :: l => by
    simp [List.flatMap_cons, List.filter_append, List.filter_cons, isProbe,
      spawnActs_filter_isProbe l]

theorem spawnActs_filter_isPrint :
    ∀ l : List (Nat × ServiceCall),
      ((l.flatMap fun p => [Action.spawn p.1, Action.startRelay p.1]).filter isPrint) = []
  | [] => rfl
  | p :: l => by
    simp [List.flatMap_cons, List.filter_append, List.filter_cons, isPrint,
      spawnActs_filter_isPrint l]

/-! ## Trace lemmas about the probe loop -/

theorem probeLoop_count (env : Env) (i : Nat) (h : i < env.calls.length) :
    ∀ (l : List (Nat × ServiceCall)) (s : LoopSt),
      countAct (Action.sendSigint i) (probeLoop env l s).1 =
        countAct Action.printShuttingDown (probeLoop env l s).1
  | [], _ => rfl
  | (j, c) :: rest, s => by
    by_cases hsd : s.shuttingDown = true
    · simp only [probeLoop, hsd, if_true]
      exact probeLoop_count env i h rest s
    · simp only [Bool.not_eq_true] at hsd
      by_cases hintr : env.intrDuringProbe j = true
      · simp [probeLoop, hsd, hintr, countAct, countAct_append, probeAddr,
          countAct_sigint_range, countAct_map_zero, h]
      · simp only [Bool.not_eq_true] at hintr
        by_cases hready : env.ready j = true
        · have IH := probeLoop_count env i h rest ⟨false, true, s.eventSet, s.crashed⟩
          simp [probeLoop, hsd, hintr, hready, countAct, probeAddr, IH]
        · simp only [Bool.not_eq_true] at hready
          have IH := probeLoop_count env i h rest ⟨true, true, true, false⟩
          simp [probeLoop, hsd, hintr, hready, countAct, countAct_append, probeAddr,
            countAct_sigint_range, countAct_map_zero, h, IH]

theorem probeLoop_filter_isSpawnAct (env : Env) :
    ∀ (l : List (Nat × ServiceCall)) (s : LoopSt),
      (probeLoop env l s).1.filter isSpawnAct = []
  | [], _ => rfl
  | (j, c) :: rest, s => by
    by_cases hsd : s.shuttingDown = true
    · simp only [probeLoop, hsd, if_true]
      exact probeLoop_filter_isSpawnAct env rest s
    · simp only [Bool.not_eq_true] at hsd
      by_cases hintr : env.intrDuringProbe j = true
      · simp [probeLoop, hsd, hintr, List.filter_cons, List.filter_append, probeAddr,
          isSpawnAct, handler_filter_isSpawnAct env true]
      · simp only [Bool.not_eq_true] at hintr
        by_cases hready : env.ready j = true
        · simp [probeLoop, hsd, hintr, hready, List.filter_cons, probeAddr, isSpawnAct,
            probeLoop_filter_isSpawnAct env rest ⟨false, true, s.eventSet, s.crashed⟩]
        · simp only [Bool.not_eq_true] at hready
          simp [probeLoop, hsd, hintr, hready, List.filter_cons, List.filter_append,
            probeAddr, isSpawnAct, handler_filter_isSpawnAct env true,
            probeLoop_filter_isSpawnAct env rest ⟨true, true, true, false⟩]

theorem probeLoop_filter_isRelayAct (env : Env) :
    ∀ (l : List (Nat × ServiceCall)) (s : LoopSt),
      (probeLoop env l s).1.filter isRelayAct = []
  | [], _ => rfl
  | (j, c) :: rest, s => by
    by_cases hsd : s.shuttingDown = true
    · simp only [probeLoop, hsd, if_true]
      exact probeLoop_filter_isRelayAct env rest s
    · simp only [Bool.not_eq_true] at hsd
      by_cases hintr : env.intrDuringProbe j = true
      · simp [probeLoop, hsd, hintr, List.filter_cons, List.filter_append, probeAddr,
          isRelayAct, handler_filter_isRelayAct env true]
      · simp only [Bool.not_eq_true] at hintr
        by_cases hready : env.ready j = true
        · simp [probeLoop, hsd, hintr, hready, List.filter_cons, probeAddr, isRelayAct,
            probeLoop_filter_isRelayAct env rest ⟨false, true, s.eventSet, s.crashed⟩]
        · simp only [Bool.not_eq_true] at hready
          simp [probeLoop, hsd, hintr, hready, List.filter_cons, List.filter_append,
            probeAddr, isRelayAct, handler_filter_isRelayAct env true,
            probeLoop_filter_isRelayAct env rest ⟨true, true, true, false⟩]

theorem probeLoop_no_doneStarting (env : Env) :
    ∀ (l : List (Nat × ServiceCall)) (s : LoopSt),
      Action.printDoneStarting ∉ (probeLoop env l s).1
  | [], _ => by simp [probeLoop]
  | (j, c) :: rest, s => by
    by_cases hsd : s.shuttingDown = true
    · simp only [probeLoop, hsd, if_true]
      exact probeLoop_no_doneStarting env rest s
    · simp only [Bool.not_eq_true] at hsd
      by_cases hintr : env.intrDuringProbe j = true
      · simp [probeLoop, hsd, hintr, probeAddr, handler_no_doneStarting env true]
      · simp only [Bool.not_eq_true] at hintr
        by_cases hready : env.ready j = true
        · simp [probeLoop, hsd, hintr, hready, probeAddr,
            probeLoop_no_doneStarting env rest ⟨false, true, s.eventSet, s.crashed⟩]
        · simp only [Bool.not_eq_true] at hready
          simp [probeLoop, hsd, hintr, hready, probeAddr,
            handler_no_doneStarting env true,
            probeLoop_no_doneStarting env rest ⟨true, true, true, false⟩]

theorem probeLoop_no_doneShuttingDown (env : Env) :
    ∀ (l : List (Nat × ServiceCall)) (s : LoopSt),
      Action.printDoneShuttingDown ∉ (probeLoop env l s).1
  | [], _ => by simp [probeLoop]
  | (j, c) :: rest, s => by
    by_cases hsd : s.shuttingDown = true
    · simp only [probeLoop, hsd, if_true]
      exact probeLoop_no_doneShuttingDown env rest s
    · simp only [Bool.not_eq_true] at hsd
      by_cases hintr : env.intrDuringProbe j = true
      · simp [probeLoop, hsd, hintr, probeAddr, handler_no_doneShuttingDown env true]
      · simp only [Bool.not_eq_true] at hintr
        by_cases hready : env.ready j = true
        · simp [probeLoop, hsd, hintr, hready, probeAddr,
            probeLoop_no_doneShuttingDown env rest ⟨false, true, s.eventSet, s.crashed⟩]
        · simp only [Bool.not_eq_true] at hready
          simp [probeLoop, hsd, hintr, hready, probeAddr,
            handler_no_doneShuttingDown env true,
            probeLoop_no_doneShuttingDown env rest ⟨true, true, true, false⟩]

theorem probeLoop_banner_shutdown (env : Env) :
    ∀ (l : List (Nat × ServiceCall)) (s : LoopSt),
      Action.printShuttingDown ∈ (probeLoop env l s).1 →
      (probeLoop env l s).2.shuttingDown = true
  | [], s, h => by simp [probeLoop] at h
  | (j, c) :: rest, s, h => by
    by_cases hsd : s.shuttingDown = true
    · rw [probeLoop_shutdown env ((j, c) :: rest) s hsd]
      exact hsd
    · simp only [Bool.not_eq_true] at hsd
      by_cases hintr : env.intrDuringProbe j = true
      · simp [probeLoop, hsd, hintr]
      · simp only [Bool.not_eq_true] at hintr
        by_cases hready : env.ready j = true
        · simp only [probeLoop, hsd, hintr, hready, if_false, if_true,
            Bool.false_eq_true, List.mem_cons] at h ⊢
          rcases h with h | h
          · simp [probeAddr] at h
          · exact probeLoop_banner_shutdown env rest ⟨false, true, s.eventSet, s.crashed⟩ h
        · simp only [Bool.not_eq_true] at hready
          simp only [probeLoop, hsd, hintr, hready, if_false, Bool.false_eq_true]
          rw [probeLoop_shutdown env rest ⟨true, true, true, false⟩ rfl]

theorem probeLoop_crash_shutdown (env : Env) :
    ∀ (l : List (Nat × ServiceCall)) (s : LoopSt), s.crashed = false →
      (probeLoop env l s).2.crashed = true → (probeLoop env l s).2.shuttingDown = true
  | [], s, hc, h => by simp [probeLoop] at h ⊢; rw [h] at hc; exact absurd hc (by simp)
  | (j, c) :: rest, s, hc, h => by
    by_cases hsd : s.shuttingDown = true
    · rw [probeLoop_shutdown env ((j, c) :: rest) s hsd]
      exact hsd
    · simp only [Bool.not_eq_true] at hsd
      by_cases hintr : env.intrDuringProbe j = true
      · simp [probeLoop, hsd, hintr]
      · simp only [Bool.not_eq_true] at hintr
        by_cases hready : env.ready j = true
        · simp only [probeLoop, hsd, hintr, hready, if_false, if_true,
            Bool.false_eq_true] at h ⊢
          exact probeLoop_crash_shutdown env rest ⟨false, true, s.eventSet, s.crashed⟩ hc h
        · simp only [Bool.not_eq_true] at hready
          simp only [probeLoop, hsd, hintr, hready, if_false, Bool.false_eq_true]
          rw [probeLoop_shutdown env rest ⟨true, true, true, false⟩ rfl]

/-! ## The listener join outcome influences nothing -/

theorem spawnLoop_relay_indep (env : Env) (f : Nat → Bool) :
    ∀ l : List (Nat × ServiceCall),
      spawnLoop { env with relayFinishes := f } l = spawnLoop env l
  | [] => rfl
  | (i, c) :: rest => by
    simp [spawnLoop, spawnLoop_relay_indep env f rest]

theorem handler_relay_indep_filter (env : Env) (f : Nat → Bool) (fs : Bool) :
    (handlerActions { env with relayFinishes := f } fs).filter isPrint =
      (handlerActions env fs).filter isPrint := by
  rw [handler_filter_isPrint, handler_filter_isPrint]

theorem probeLoop_relay_indep (env : Env) (f : Nat → Bool) :
    ∀ (l : List (Nat × ServiceCall)) (s : LoopSt),
      (probeLoop { env with relayFinishes := f } l s).2 = (probeLoop env l s).2 ∧
        (probeLoop { env with relayFinishes := f } l s).1.filter isPrint =
          (probeLoop env l s).1.filter isPrint
  | [], _ => ⟨rfl, rfl⟩
  | (j, c) :: rest, s => by
    by_cases hsd : s.shuttingDown = true
    · simp only [probeLoop, hsd, if_true]
      exact probeLoop_relay_indep env f rest s
    · simp only [Bool.not_eq_true] at hsd
      by_cases hintr : env.intrDuringProbe j = true
      · constructor
        · simp [probeLoop, hsd, hintr]
        · simp [probeLoop, hsd, hintr, List.filter_cons, List.filter_append, probeAddr,
            isPrint, handler_filter_isPrint]
      · simp only [Bool.not_eq_true] at hintr
        by_cases hready : env.ready j = true
        · have IH := probeLoop_relay_indep env f rest ⟨false, true, s.eventSet, s.crashed⟩
          constructor
          · simp only [probeLoop, hsd, hintr, hready, if_false, if_true,
              Env.intrDuringProbe, Env.ready, Bool.false_eq_true]
            exact IH.1
          · simp only [probeLoop, hsd, hintr, hready, if_false, if_true,
              Bool.false_eq_true, List.filter_cons]
            simp [probeAddr, isPrint, IH.2]
        · simp only [Bool.not_eq_true] at hready
          have IH := probeLoop_relay_indep env f rest ⟨true, true, true, false⟩
          constructor
          · simp only [probeLoop, hsd, hintr, hready, if_false, Bool.false_eq_true]
            exact IH.1
          · simp only [probeLoop, hsd, hintr, hready, if_false, Bool.false_eq_true,
              List.filter_cons, List.filter_append]
            simp [probeAddr, isPrint, IH.2, handler_filter_isPrint]

theorem spawnLoop_no_sigint (env : Env) (l : List (Nat × ServiceCall)) (i : Nat) :
    Action.sendSigint i ∉ (spawnLoop env l).1 := by
  intro hm
  rcases spawnLoop_mem env l _ hm with ⟨j, hj⟩ | ⟨j, hj⟩ <;> simp at hj

theorem spawnLoop_no_banner (env : Env) (l : List (Nat × ServiceCall)) :
    Action.printShuttingDown ∉ (spawnLoop env l).1 := by
  intro hm
  rcases spawnLoop_mem env l _ hm with ⟨j, hj⟩ | ⟨j, hj⟩ <;> simp at hj

theorem spawnLoop_no_doneShuttingDown (env : Env) (l : List (Nat × ServiceCall)) :
    Action.printDoneShuttingDown ∉ (spawnLoop env l).1 := by
  intro hm
  rcases spawnLoop_mem env l _ hm with ⟨j, hj⟩ | ⟨j, hj⟩ <;> simp at hj

theorem spawnLoop_no_failed (env : Env) (l : List (Nat × ServiceCall)) (cmd : List String) :
    Action.printFailedToLaunch cmd ∉ (spawnLoop env l).1 := by
  intro hm
  rcases spawnLoop_mem env l _ hm with ⟨j, hj⟩ | ⟨j, hj⟩ <;> simp at hj

/-! ## Concrete run schedules used as counterexamples and witnesses

The sample plan mirrors the first three entries of the launch plan built
in `deploy` (with abridged command lines). -/

def sentencesCall : ServiceCall :=
  ⟨["python", "-m", "biomedicus.sentences.bi_lstm", "processor"], "10102"⟩

def taggerCall : ServiceCall :=
  ⟨["java", "edu.umn.biomedicus.tagging.tnt.TntPosTaggerProcessor"], "10103"⟩

def acronymsCall : ServiceCall :=
  ⟨["java", "edu.umn.biomedicus.acronym.AcronymDetectorProcessor"], "10104"⟩

def samplePlan : List ServiceCall := [sentencesCall, taggerCall, acronymsCall]

/-- A schedule where everything goes right: every spawn succeeds, every
service becomes ready, no interrupt is ever delivered, every listener
joins within its grace period. -/
def quietRun (cs : List ServiceCall) : Env :=
  { calls := cs
    spawnOk := fun _ => true
    ready := fun _ => true
    intrDuringProbe := fun _ => false
    intrAfterLoop := false
    intrDuringWait := false
    relayFinishes := fun _ => true }

/-- Service 2 of 3 (index 1) never becomes ready; no external interrupt. -/
def c1Env : Env := { quietRun samplePlan with ready := fun i => i != 1 }

/-- Service 2 of 3 (index 1) never becomes ready, and an external SIGINT
additionally arrives after the probe loop: two shutdown triggers in one
run. -/
def c2Env : Env :=
  { quietRun samplePlan with ready := fun i => i != 1, intrAfterLoop := true }

/-! ## Claim C1 -/

/-- Claim C1, counterexample.  The claim states that the exit status is
non-zero when a service fails its readiness check.  In the run `c1Env`
service index 1 never becomes ready, its readiness failure is diagnosed
(the `Failed to launch` line for the tagger command is in the trace),
and yet `deploy` returns normally: the process exit status is 0, not
non-zero.  (`deploy` contains no `sys.exit` and swallows the failure.) -/
theorem c1_counterexample :
    c1Env.ready 1 = false ∧
      Action.printFailedToLaunch taggerCall.command ∈ (runDeploy c1Env).trace ∧
      (runDeploy c1Env).exit = ExitStatus.ok := by
  refine ⟨rfl, ?_, ?_⟩ <;> decide

/-- Claim C1 (amended): the process exit status is 0 both on a clean run
stopped by an external interrupt after all services became ready *and*
on a run where a service failed its readiness check; `deploy` never sets
a non-zero status.  (Non-zero exits arise only from uncaught exceptions:
a spawn failure, or a probe cancelled by an interrupt in flight.)
Formally: whenever every spawn succeeds and no interrupt arrives during
an in-flight probe, the run either exits with status 0 or blocks forever
in the steady state, and if some service fails its readiness check the
run terminates with exit status 0. -/
theorem c1_amended (env : Env)
    (hs : ∀ i, i < env.calls.length → env.spawnOk i = true)
    (hi : ∀ i, env.intrDuringProbe i = false) :
    ((runDeploy env).exit = ExitStatus.ok ∨ (runDeploy env).exit = ExitStatus.blocked) ∧
      ((∃ i, i < env.calls.length ∧ env.ready i = false) →
        (runDeploy env).exit = ExitStatus.ok) := by
  have hokm : ∀ p ∈ planEnum 0 env.calls, env.spawnOk p.1 = true := by
    intro p hp
    have hb := mem_planEnum env.calls 0 p hp
    exact hs p.1 (by omega)
  have hok : (spawnLoop env (planEnum 0 env.calls)).2 = true := by
    rw [spawnLoop_ok env _ hokm]
  have hcr : (probeLoop env (planEnum 0 env.calls) initSt).2.crashed = false :=
    probeLoop_no_crash env _ initSt (fun p _ => hi p.1) rfl
  constructor
  · simp only [runDeploy, hok, if_true, hcr, Bool.false_eq_true, if_false]
    by_cases hA : env.intrAfterLoop = true
    · simp [hA]
    · simp only [Bool.not_eq_true] at hA
      by_cases hE : (probeLoop env (planEnum 0 env.calls) initSt).2.eventSet = true
      · simp [hA, hE]
      · simp only [Bool.not_eq_true] at hE
        by_cases hW : env.intrDuringWait = true
        · simp [hA, hE, hW]
        · simp only [Bool.not_eq_true] at hW
          simp [hA, hE, hW]
  · rintro ⟨i, hin, hready⟩
    have hex : ∃ k, k < env.calls.length ∧ env.ready k = false := ⟨i, hin, hready⟩
    have hjspec := Nat.find_spec hex
    have hpre : ∀ p ∈ planEnum 0 (env.calls.take (Nat.find hex)),
        env.ready p.1 = true ∧ env.intrDuringProbe p.1 = false := by
      intro p hp
      have hb := mem_planEnum _ 0 p hp
      rw [List.length_take] at hb
      have hlt : p.1 < Nat.find hex := by omega
      have hnot := Nat.find_min hex hlt
      refine ⟨?_, hi p.1⟩
      cases hrp : env.ready p.1
      · exact absurd ⟨by omega, hrp⟩ hnot
      · rfl
    have hloop := probeLoop_first_timeout env (planEnum 0 (env.calls.take (Nat.find hex)))
      (Nat.find hex) (env.calls.get ⟨Nat.find hex, hjspec.1⟩)
      (planEnum (Nat.find hex + 1) (env.calls.drop (Nat.find hex + 1))) false false
      hpre (hi (Nat.find hex)) hjspec.2
    have hcr2 : (probeLoop env (planEnum 0 env.calls) initSt).2 = ⟨true, true, true, false⟩ := by
      simp only [initSt]
      rw [plan_decomp env.calls (Nat.find hex) hjspec.1, hloop]
    simp only [runDeploy, hok, if_true, hcr2]
    by_cases hA : env.intrAfterLoop = true <;> simp [hA]

/-- Claim C1, witness for the amended theorem at the concrete schedule
`c1Env` (service index 1 fails readiness; exit status is 0). -/
theorem c1_witness : (runDeploy c1Env).exit = ExitStatus.ok :=
  (c1_amended c1Env (fun _ _ => rfl) (fun _ => rfl)).2 ⟨1, by decide, rfl⟩

/-! ## Claim C2 -/

/-- Claim C2, counterexample.  The claim states that no matter how many
times the shutdown trigger fires, exactly one cascade of termination
requests is sent, a second trigger being a no-op guarded by the
`shuttingDown` flag.  In the run `c2Env` the readiness failure of
service index 1 triggers `handler` once, and a SIGINT delivered after
the probe loop runs the unguarded `handler` a second time: the trace
contains two `Shutting down all processors` banners and process 0
receives two termination requests, not one.  (`handler` never checks
`shutting_down[0]`; the flag only stops further probes.) -/
theorem c2_counterexample :
    countAct Action.printShuttingDown (runDeploy c2Env).trace = 2 ∧
      countAct (Action.sendSigint 0) (runDeploy c2Env).trace = 2 := by
  constructor <;> decide

/-- Claim C2 (amended): triggering shutdown is *not* idempotent —
`handler` has no guard, so every delivered trigger runs one full
cascade.  What does hold in every run is that the cascades are complete
and uniform: each process with an index in the launch plan receives
exactly one termination request per cascade, i.e. the number of
termination requests sent to process `i` always equals the number of
`Shutting down all processors` banners (the number of times `handler`
ran).  The `shuttingDown` flag only prevents further readiness probes
from starting. -/
theorem c2_amended (env : Env) (i : Nat) (h : i < env.calls.length) :
    countAct (Action.sendSigint i) (runDeploy env).trace =
      countAct Action.printShuttingDown (runDeploy env).trace := by
  have hsp1 := countAct_eq_zero_of_not_mem (spawnLoop_no_sigint env (planEnum 0 env.calls) i)
  have hsp2 := countAct_eq_zero_of_not_mem (spawnLoop_no_banner env (planEnum 0 env.calls))
  have hpl := probeLoop_count env i h (planEnum 0 env.calls) initSt
  have hcf1 : ∀ b : Bool, countAct (Action.sendSigint i)
      (if b = true then [Action.cancelFuture] else []) = 0 := by
    intro b; cases b <;> simp [countAct]
  have hcf2 : ∀ b : Bool, countAct Action.printShuttingDown
      (if b = true then [Action.cancelFuture] else []) = 0 := by
    intro b; cases b <;> simp [countAct]
  by_cases hok : (spawnLoop env (planEnum 0 env.calls)).2 = true
  · by_cases hcr : (probeLoop env (planEnum 0 env.calls) initSt).2.crashed = true
    · simp only [runDeploy, hok, hcr, if_true]
      simp only [countAct_append, hsp1, hsp2, hpl]
    · by_cases hA : env.intrAfterLoop = true
      · simp only [runDeploy, hok, hcr, hA, if_true, if_false, Bool.false_eq_true]
        simp [countAct_append, hsp1, hsp2, hpl, countAct, countAct_sigint_range,
          countAct_map_zero, h, hcf1, hcf2]
      · simp only [Bool.not_eq_true] at hA
        by_cases hE : (probeLoop env (planEnum 0 env.calls) initSt).2.eventSet = true
        · simp only [runDeploy, hok, hcr, hA, hE, if_true, if_false, Bool.false_eq_true]
          simp [countAct_append, hsp1, hsp2, hpl, countAct, countAct_sigint_range,
            countAct_map_zero, h, hcf1, hcf2]
        · by_cases hW : env.intrDuringWait = true
          · simp only [runDeploy, hok, hcr, hA, hE, hW, if_true, if_false, Bool.false_eq_true]
            simp [countAct_append, hsp1, hsp2, hpl, countAct, countAct_sigint_range,
              countAct_map_zero, h, hcf1, hcf2]
          · simp only [Bool.not_eq_true] at hW
            simp only [runDeploy, hok, hcr, hA, hE, hW, if_true, if_false, Bool.false_eq_true]
            simp [countAct_append, hsp1, hsp2, hpl, countAct, countAct_sigint_range,
              countAct_map_zero, h, hcf1, hcf2]
  · simp only [Bool.not_eq_true] at hok
    simp only [runDeploy, hok, Bool.false_eq_true, if_false]
    simp [hsp1, hsp2]

/-- Claim C2, witness for the amended theorem at the concrete schedule
`c2Env`: process 0 receives exactly as many termination requests as
there were cascades. -/
theorem c2_witness :
    countAct (Action.sendSigint 0) (runDeploy c2Env).trace =
      countAct Action.printShuttingDown (runDeploy c2Env).trace :=
  c2_amended c2Env 0 (by decide)

theorem countAct_cons_ne (a b : Action) (l : List Action) (h : ¬(b = a)) :
    countAct a (b :: l) = countAct a l := by
  simp [countAct, h]

theorem spawnActsList_mem (l : List (Nat × ServiceCall)) (a : Action)
    (h : a ∈ l.flatMap fun p => [Action.spawn p.1, Action.startRelay p.1]) :
    (∃ i, a = Action.spawn i) ∨ ∃ i, a = Action.startRelay i := by
  simp only [List.mem_flatMap] at h
  rcases h with ⟨p, _, hp⟩
  simp only [List.mem_cons, List.mem_singleton] at hp
  rcases hp with hp | hp | hp
  · exact Or.inl ⟨p.1, hp⟩
  · exact Or.inr ⟨p.1, hp⟩
  · simp at hp

/-! ## Claim C3 -/

/-- Claim C3: when the readiness probe of a service times out (and every
earlier service was ready, with no interrupt delivered mid-probe), the
supervisor first prints the diagnostic identifying the failed command,
then immediately runs the shutdown handler — whose cascade sends a
termination request to every spawned process, the already-ready ones
included — and abandons probing the rest of the plan: no probe action
occurs after the cascade. -/
theorem c3_timeout_diagnoses_then_cascades (env : Env) (i : Nat)
    (hin : i < env.calls.length)
    (hs : ∀ j, j < env.calls.length → env.spawnOk j = true)
    (hpre : ∀ j, j < i → env.ready j = true ∧ env.intrDuringProbe j = false)
    (hii : env.intrDuringProbe i = false) (hti : env.ready i = false) :
    ∃ rest,
      (runDeploy env).trace =
        spawnActsOf env ++
          (((env.calls.take i).map probeAddr) ++
            probeAddr (env.calls.get ⟨i, hin⟩) ::
              Action.printFailedToLaunch (env.calls.get ⟨i, hin⟩).command ::
                handlerActions env true) ++ rest ∧
      rest.filter isProbe = [] ∧
      ∀ cmd, Action.printFailedToLaunch cmd ∉ rest := by
  have hokm : ∀ p ∈ planEnum 0 env.calls, env.spawnOk p.1 = true := by
    intro p hp; have hb := mem_planEnum env.calls 0 p hp; exact hs p.1 (by omega)
  have hok := spawnLoop_ok env (planEnum 0 env.calls) hokm
  have hpre' : ∀ p ∈ planEnum 0 (env.calls.take i),
      env.ready p.1 = true ∧ env.intrDuringProbe p.1 = false := by
    intro p hp
    have hb := mem_planEnum _ 0 p hp
    rw [List.length_take] at hb
    exact hpre p.1 (by omega)
  have hloop := probeLoop_first_timeout env (planEnum 0 (env.calls.take i)) i
      (env.calls.get ⟨i, hin⟩) (planEnum (i + 1) (env.calls.drop (i + 1))) false false
      hpre' hii hti
  have hpl : probeLoop env (planEnum 0 env.calls) initSt =
      (((env.calls.take i).map probeAddr) ++
          probeAddr (env.calls.get ⟨i, hin⟩) ::
            Action.printFailedToLaunch (env.calls.get ⟨i, hin⟩).command ::
              handlerActions env true,
        ⟨true, true, true, false⟩) := by
    simp only [initSt]
    rw [plan_decomp env.calls i hin, hloop, map_planEnum]
  by_cases hA : env.intrAfterLoop = true
  · refine ⟨handlerActions env true ++ [Action.printDoneStarting, Action.printDoneShuttingDown],
      ?_, ?_, ?_⟩
    · simp only [runDeploy, hok, if_true, hpl]
      simp [hA, List.append_assoc, spawnActsOf]
    · simp [List.filter_append, handler_filter_isProbe, List.filter_cons, isProbe]
    · intro cmd
      simp [handler_no_failed env true cmd]
  · refine ⟨[Action.printDoneStarting, Action.printDoneShuttingDown], ?_, ?_, ?_⟩
    · simp only [Bool.not_eq_true] at hA
      simp only [runDeploy, hok, if_true, hpl]
      simp [hA, List.append_assoc, spawnActsOf]
    · simp [List.filter_cons, isProbe]
    · intro cmd
      simp

/-- Claim C3, witness: the amended hypotheses hold at the concrete
schedule `c1Env` (service index 1, the tagger, never becomes ready). -/
theorem c3_witness :
    ∃ rest,
      (runDeploy c1Env).trace =
        spawnActsOf c1Env ++
          (((c1Env.calls.take 1).map probeAddr) ++
            probeAddr taggerCall ::
              Action.printFailedToLaunch taggerCall.command ::
                handlerActions c1Env true) ++ rest ∧
      rest.filter isProbe = [] ∧
      ∀ cmd, Action.printFailedToLaunch cmd ∉ rest :=
  c3_timeout_diagnoses_then_cascades c1Env 1 (by decide) (fun _ _ => rfl)
    (by decide) rfl rfl

/-! ## Claim C4 -/

/-- Service index 1's readiness probe has a SIGINT delivered while it is
in flight; everything else goes right. -/
def c4Env : Env := { quietRun samplePlan with intrDuringProbe := fun i => i == 1 }

/-- Claim C4, counterexample.  The claim states that after a shutdown
trigger cancels an in-flight probe, the supervisor stops driving probes
*without treating the cancellation as a new failure*.  In the run
`c4Env` the handler does cancel the in-flight probe, but the resumed
wait then raises `grpc.FutureCancelledError`, which the code does not
catch (it catches only `grpc.FutureTimeoutError`): `deploy` aborts with
an uncaught exception — a non-zero exit, with neither completion banner
printed — rather than proceeding quietly. -/
theorem c4_counterexample :
    Action.cancelFuture ∈ (runDeploy c4Env).trace ∧
      (runDeploy c4Env).exit = ExitStatus.exn ∧
      Action.printDoneStarting ∉ (runDeploy c4Env).trace ∧
      Action.printDoneShuttingDown ∉ (runDeploy c4Env).trace := by
  refine ⟨?_, ?_, ?_, ?_⟩ <;> decide

/-- Claim C4 (amended): if a SIGINT is delivered while a readiness probe
is in flight, the handler runs (its cascade includes the
`future.cancel()` call), no further probes are driven, and the
cancellation is not treated as a readiness failure — no diagnostic is
printed and no second cascade occurs — but the resumed
`future.result()` call raises an uncaught cancellation error, so
`deploy` aborts with a non-zero exit status instead of reaching the
normal wait. -/
theorem c4_amended (env : Env) (i : Nat) (hin : i < env.calls.length)
    (hs : ∀ j, j < env.calls.length → env.spawnOk j = true)
    (hpre : ∀ j, j < i → env.ready j = true ∧ env.intrDuringProbe j = false)
    (hii : env.intrDuringProbe i = true) :
    (runDeploy env).trace =
      spawnActsOf env ++
        (((env.calls.take i).map probeAddr) ++
          probeAddr (env.calls.get ⟨i, hin⟩) ::
            (handlerActions env true ++ [Action.raiseFutureCancelled])) ∧
    (runDeploy env).exit = ExitStatus.exn ∧
    Action.cancelFuture ∈ (runDeploy env).trace ∧
    (∀ cmd, Action.printFailedToLaunch cmd ∉ (runDeploy env).trace) ∧
    countAct Action.printShuttingDown (runDeploy env).trace = 1 := by
  have hokm : ∀ p ∈ planEnum 0 env.calls, env.spawnOk p.1 = true := by
    intro p hp; have hb := mem_planEnum env.calls 0 p hp; exact hs p.1 (by omega)
  have hok := spawnLoop_ok env (planEnum 0 env.calls) hokm
  have hpre' : ∀ p ∈ planEnum 0 (env.calls.take i),
      env.ready p.1 = true ∧ env.intrDuringProbe p.1 = false := by
    intro p hp
    have hb := mem_planEnum _ 0 p hp
    rw [List.length_take] at hb
    exact hpre p.1 (by omega)
  have hloop := probeLoop_first_intr env (planEnum 0 (env.calls.take i)) i
      (env.calls.get ⟨i, hin⟩) (planEnum (i + 1) (env.calls.drop (i + 1))) false false
      hpre' hii
  have hpl : probeLoop env (planEnum 0 env.calls) initSt =
      (((env.calls.take i).map probeAddr) ++
          probeAddr (env.calls.get ⟨i, hin⟩) ::
            (handlerActions env true ++ [Action.raiseFutureCancelled]),
        ⟨true, true, true, true⟩) := by
    simp only [initSt]
    rw [plan_decomp env.calls i hin, hloop, map_planEnum]
  have htr : (runDeploy env).trace =
      spawnActsOf env ++
        (((env.calls.take i).map probeAddr) ++
          probeAddr (env.calls.get ⟨i, hin⟩) ::
            (handlerActions env true ++ [Action.raiseFutureCancelled])) := by
    simp only [runDeploy, hok, if_true, hpl]
    simp [spawnActsOf]
  have hex : (runDeploy env).exit = ExitStatus.exn := by
    simp only [runDeploy, hok, if_true, hpl]
  refine ⟨htr, hex, ?_, ?_, ?_⟩
  · rw [htr]
    have : Action.cancelFuture ∈ handlerActions env true := by simp [handlerActions]
    simp [this]
  · intro cmd hm
    rw [htr] at hm
    simp only [List.mem_append, List.mem_cons, List.not_mem_nil, or_false] at hm
    rcases hm with hm | hm | hm | hm | hm
    · rcases spawnActsList_mem _ _ hm with ⟨j, hj⟩ | ⟨j, hj⟩ <;> simp at hj
    · simp only [List.mem_map] at hm
      rcases hm with ⟨x, _, hx⟩
      simp [probeAddr] at hx
    · simp [probeAddr] at hm
    · exact handler_no_failed env true cmd hm
    · simp at hm
  · rw [htr, countAct_append, countAct_append]
    have hA0 : countAct Action.printShuttingDown (spawnActsOf env) = 0 :=
      countAct_eq_zero_of_not_mem (fun hm => by
        rcases spawnActsList_mem _ _ hm with ⟨j, hj⟩ | ⟨j, hj⟩ <;> simp at hj)
    have hB0 : countAct Action.printShuttingDown ((env.calls.take i).map probeAddr) = 0 :=
      countAct_map_zero _ _ (fun x => by simp [probeAddr]) _
    rw [hA0, hB0, countAct_cons_ne _ _ _ (by simp [probeAddr]),
      countAct_append, handler_count_banner]
    rw [countAct_cons_ne _ _ _ (by simp)]
    rfl

/-- Claim C4, witness for the amended theorem at the concrete schedule
`c4Env` (SIGINT during the probe of service index 1). -/
theorem c4_witness :
    (runDeploy c4Env).trace =
      spawnActsOf c4Env ++
        (((c4Env.calls.take 1).map probeAddr) ++
          probeAddr taggerCall ::
            (handlerActions c4Env true ++ [Action.raiseFutureCancelled])) ∧
    (runDeploy c4Env).exit = ExitStatus.exn ∧
    Action.cancelFuture ∈ (runDeploy c4Env).trace ∧
    (∀ cmd, Action.printFailedToLaunch cmd ∉ (runDeploy c4Env).trace) ∧
    countAct Action.printShuttingDown (runDeploy c4Env).trace = 1 :=
  c4_amended c4Env 1 (by decide) (fun _ _ => rfl) (by decide) rfl

/-! ## Claim C5 -/

/-- The `Popen` call of service index 1 raises (e.g. executable not
found); everything else would have gone right. -/
def c5Env : Env := { quietRun samplePlan with spawnOk := fun i => i == 0 }

/-- Claim C5, counterexample.  The claim states that after a spawn
failure the already-spawned children still receive termination requests.
In the run `c5Env` the spawn of service index 1 fails after service 0
was spawned; the `Popen` exception propagates out of `deploy` before the
interrupt handler is even installed, so the whole trace is the spawn of
service 0 — no `SIGINT` is ever sent to it. -/
theorem c5_counterexample :
    (runDeploy c5Env).trace = [Action.spawn 0, Action.startRelay 0] ∧
      Action.sendSigint 0 ∉ (runDeploy c5Env).trace ∧
      (runDeploy c5Env).exit = ExitStatus.exn := by
  refine ⟨?_, ?_, ?_⟩ <;> decide

/-- Claim C5 (amended): if a command in the launch plan fails to spawn,
the launch phase aborts with an uncaught exception (non-zero exit), no
readiness probe is ever attempted — but the children spawned before the
failure receive *no* termination request: the exception propagates
before the interrupt handler is installed and there is no cleanup, so
neither a cascade banner nor any `SIGINT` appears in the trace. -/
theorem c5_amended (env : Env) (i : Nat) (hin : i < env.calls.length)
    (hpre : ∀ j, j < i → env.spawnOk j = true) (hf : env.spawnOk i = false) :
    (runDeploy env).trace =
      ((planEnum 0 (env.calls.take i)).flatMap
        fun p => [Action.spawn p.1, Action.startRelay p.1]) ∧
    (runDeploy env).exit = ExitStatus.exn ∧
    (runDeploy env).trace.filter isProbe = [] ∧
    (∀ j, Action.sendSigint j ∉ (runDeploy env).trace) ∧
    Action.printShuttingDown ∉ (runDeploy env).trace := by
  have hpre' : ∀ p ∈ planEnum 0 (env.calls.take i), env.spawnOk p.1 = true := by
    intro p hp
    have hb := mem_planEnum _ 0 p hp
    rw [List.length_take] at hb
    exact hpre p.1 (by omega)
  have hsl : spawnLoop env (planEnum 0 env.calls) =
      ((planEnum 0 (env.calls.take i)).flatMap
        fun p => [Action.spawn p.1, Action.startRelay p.1], false) := by
    rw [plan_decomp env.calls i hin]
    exact spawnLoop_fail env (planEnum 0 (env.calls.take i)) i (env.calls.get ⟨i, hin⟩)
      (planEnum (i + 1) (env.calls.drop (i + 1))) hpre' hf
  have htr : (runDeploy env).trace =
      ((planEnum 0 (env.calls.take i)).flatMap
        fun p => [Action.spawn p.1, Action.startRelay p.1]) := by
    simp only [runDeploy, hsl]
    simp
  have hex : (runDeploy env).exit = ExitStatus.exn := by
    simp only [runDeploy, hsl]
    simp
  refine ⟨htr, hex, ?_, ?_, ?_⟩
  · rw [htr]
    exact spawnActs_filter_isProbe _
  · intro j hm
    rw [htr] at hm
    rcases spawnActsList_mem _ _ hm with ⟨k, hk⟩ | ⟨k, hk⟩ <;> simp at hk
  · intro hm
    rw [htr] at hm
    rcases spawnActsList_mem _ _ hm with ⟨k, hk⟩ | ⟨k, hk⟩ <;> simp at hk

/-- Claim C5, witness for the amended theorem at the concrete schedule
`c5Env` (spawn of service index 1 fails). -/
theorem c5_witness :
    (runDeploy c5Env).trace =
      ((planEnum 0 (c5Env.calls.take 1)).flatMap
        fun p => [Action.spawn p.1, Action.startRelay p.1]) ∧
    (runDeploy c5Env).exit = ExitStatus.exn ∧
    (runDeploy c5Env).trace.filter isProbe = [] ∧
    (∀ j, Action.sendSigint j ∉ (runDeploy c5Env).trace) ∧
    Action.printShuttingDown ∉ (runDeploy c5Env).trace :=
  c5_amended c5Env 1 (by decide) (by decide) rfl

/-! ## Claim C6 -/

theorem take_succ_get {α β : Type} (l : List α) (i : Nat) (h : i < l.length) (f : α → β) :
    (l.take (i + 1)).map f = (l.take i).map f ++ [f (l.get ⟨i, h⟩)] := by
  rw [List.take_succ, List.map_append]
  congr 1
  rw [List.getElem?_eq_getElem h]
  simp [List.get_eq_getElem]

theorem runDeploy_decomp (env : Env)
    (hok : (spawnLoop env (planEnum 0 env.calls)).2 = true) :
    ∃ rest, (runDeploy env).trace = (spawnLoop env (planEnum 0 env.calls)).1 ++ rest ∧
      rest.filter isSpawnAct = [] ∧ rest.filter isRelayAct = [] ∧
      rest.filter isProbe = (probeLoop env (planEnum 0 env.calls) initSt).1.filter isProbe := by
  have hDS : ∀ p : Action → Bool, p Action.printDoneStarting = false →
      List.filter p [Action.printDoneStarting] = [] := by
    intro p hp; simp [List.filter_cons, hp]
  by_cases hcr : (probeLoop env (planEnum 0 env.calls) initSt).2.crashed = true
  · refine ⟨(probeLoop env (planEnum 0 env.calls) initSt).1, ?_, ?_, ?_, rfl⟩
    · simp only [runDeploy, hok, if_true, hcr]
    · exact probeLoop_filter_isSpawnAct env _ _
    · exact probeLoop_filter_isRelayAct env _ _
  · by_cases hA : env.intrAfterLoop = true
    · refine ⟨(probeLoop env (planEnum 0 env.calls) initSt).1 ++
        (handlerActions env (probeLoop env (planEnum 0 env.calls) initSt).2.futureSet ++
          [Action.printDoneStarting, Action.printDoneShuttingDown]), ?_, ?_, ?_, ?_⟩
      · simp only [runDeploy, hok, if_true, hcr, hA, Bool.false_eq_true, if_false]
        simp [List.append_assoc]
      · simp [List.filter_append, probeLoop_filter_isSpawnAct, handler_filter_isSpawnAct,
          List.filter_cons, isSpawnAct]
      · simp [List.filter_append, probeLoop_filter_isRelayAct, handler_filter_isRelayAct,
          List.filter_cons, isRelayAct]
      · simp [List.filter_append, handler_filter_isProbe, List.filter_cons, isProbe]
    · simp only [Bool.not_eq_true] at hA
      by_cases hE : (probeLoop env (planEnum 0 env.calls) initSt).2.eventSet = true
      · refine ⟨(probeLoop env (planEnum 0 env.calls) initSt).1 ++
          [Action.printDoneStarting, Action.printDoneShuttingDown], ?_, ?_, ?_, ?_⟩
        · simp only [runDeploy, hok, if_true, hcr, hA, hE, Bool.false_eq_true, if_false]
          simp [hE, List.append_assoc]
        · simp [List.filter_append, probeLoop_filter_isSpawnAct, List.filter_cons, isSpawnAct]
        · simp [List.filter_append, probeLoop_filter_isRelayAct, List.filter_cons, isRelayAct]
        · simp [List.filter_append, List.filter_cons, isProbe]
      · simp only [Bool.not_eq_true] at hE
        by_cases hW : env.intrDuringWait = true
        · refine ⟨(probeLoop env (planEnum 0 env.calls) initSt).1 ++
            ([Action.printDoneStarting] ++
              (handlerActions env (probeLoop env (planEnum 0 env.calls) initSt).2.futureSet ++
                [Action.printDoneShuttingDown])), ?_, ?_, ?_, ?_⟩
          · simp only [runDeploy, hok, if_true, hcr, hA, hE, hW, Bool.false_eq_true, if_false]
            simp [hE, List.append_assoc]
          · simp [List.filter_append, probeLoop_filter_isSpawnAct, handler_filter_isSpawnAct,
              List.filter_cons, isSpawnAct]
          · simp [List.filter_append, probeLoop_filter_isRelayAct, handler_filter_isRelayAct,
              List.filter_cons, isRelayAct]
          · simp [List.filter_append, handler_filter_isProbe, List.filter_cons, isProbe]
        · simp only [Bool.not_eq_true] at hW
          refine ⟨(probeLoop env (planEnum 0 env.calls) initSt).1 ++
            [Action.printDoneStarting], ?_, ?_, ?_, ?_⟩
          · simp only [runDeploy, hok, if_true, hcr, hA, hE, hW, Bool.false_eq_true, if_false]
            simp [hE, List.append_assoc]
          · simp [List.filter_append, probeLoop_filter_isSpawnAct, List.filter_cons, isSpawnAct]
          · simp [List.filter_append, probeLoop_filter_isRelayAct, List.filter_cons, isRelayAct]
          · simp [List.filter_append, List.filter_cons, isProbe]

/-- Claim C6: for a launch plan of size N in which every spawn succeeds,
the supervisor creates exactly N process handles and N relay tasks, all
of them in a block that precedes every readiness probe; it then probes
the services strictly in launch-plan order, each exactly once at address
`127.0.0.1:port` with a 20-unit timeout — all N of them when nothing
triggers shutdown, and exactly the first `i + 1` when the first shutdown
trigger happens at service `i` (later services receive zero probes). -/
theorem c6_n_handles_then_ordered_probes (env : Env)
    (hs : ∀ i, i < env.calls.length → env.spawnOk i = true) :
    ((runDeploy env).trace.filter isSpawnAct).length = env.calls.length ∧
    ((runDeploy env).trace.filter isRelayAct).length = env.calls.length ∧
    (∃ rest, (runDeploy env).trace = spawnActsOf env ++ rest ∧
      rest.filter isSpawnAct = [] ∧ rest.filter isRelayAct = []) ∧
    ((∀ i, i < env.calls.length → env.ready i = true ∧ env.intrDuringProbe i = false) →
      (runDeploy env).trace.filter isProbe = env.calls.map probeAddr) ∧
    (∀ i, i < env.calls.length →
      (∀ j, j < i → env.ready j = true ∧ env.intrDuringProbe j = false) →
      (env.intrDuringProbe i = true ∨ env.ready i = false) →
      (runDeploy env).trace.filter isProbe = (env.calls.take (i + 1)).map probeAddr) := by
  have hokm : ∀ p ∈ planEnum 0 env.calls, env.spawnOk p.1 = true := by
    intro p hp; have hb := mem_planEnum env.calls 0 p hp; exact hs p.1 (by omega)
  have hok := spawnLoop_ok env (planEnum 0 env.calls) hokm
  obtain ⟨rest, htr, hfs, hfr, hfp⟩ := runDeploy_decomp env (by rw [hok])
  rw [hok] at htr
  have htr' : (runDeploy env).trace = spawnActsOf env ++ rest := htr
  refine ⟨?_, ?_, ⟨rest, htr', hfs, hfr⟩, ?_, ?_⟩
  · rw [htr', List.filter_append, hfs, List.append_nil, spawnActsOf,
      spawnActs_filter_spawn, List.length_map, length_planEnum]
  · rw [htr', List.filter_append, hfr, List.append_nil, spawnActsOf,
      spawnActs_filter_relay, List.length_map, length_planEnum]
  · intro hall
    have hall' : ∀ p ∈ planEnum 0 env.calls,
        env.ready p.1 = true ∧ env.intrDuringProbe p.1 = false := by
      intro p hp; have hb := mem_planEnum env.calls 0 p hp; exact hall p.1 (by omega)
    have hpl := probeLoop_all_ready env (planEnum 0 env.calls) false false hall'
    rw [htr', List.filter_append, spawnActsOf, spawnActs_filter_isProbe, List.nil_append,
      hfp]
    have : (probeLoop env (planEnum 0 env.calls) initSt).1 =
        (planEnum 0 env.calls).map fun p => probeAddr p.2 := by
      simp only [initSt]; rw [hpl]
    rw [this, filter_map_self isProbe (fun p : Nat × ServiceCall => probeAddr p.2) (fun x => rfl), map_planEnum]
  · intro i hin hprev htrig
    have hpre' : ∀ p ∈ planEnum 0 (env.calls.take i),
        env.ready p.1 = true ∧ env.intrDuringProbe p.1 = false := by
      intro p hp
      have hb := mem_planEnum _ 0 p hp
      rw [List.length_take] at hb
      exact hprev p.1 (by omega)
    rw [htr', List.filter_append, spawnActsOf, spawnActs_filter_isProbe, List.nil_append,
      hfp]
    by_cases hi2 : env.intrDuringProbe i = true
    · have hloop := probeLoop_first_intr env (planEnum 0 (env.calls.take i)) i
        (env.calls.get ⟨i, hin⟩) (planEnum (i + 1) (env.calls.drop (i + 1))) false false
        hpre' hi2
      have hpl1 : (probeLoop env (planEnum 0 env.calls) initSt).1 =
          ((env.calls.take i).map probeAddr) ++
            probeAddr (env.calls.get ⟨i, hin⟩) ::
              (handlerActions env true ++ [Action.raiseFutureCancelled]) := by
        simp only [initSt]
        rw [plan_decomp env.calls i hin, hloop, map_planEnum]
      rw [hpl1, List.filter_append, filter_map_self isProbe probeAddr (fun x => rfl),
        List.filter_cons, take_succ_get env.calls i hin probeAddr]
      simp [isProbe, probeAddr, List.filter_append, handler_filter_isProbe, List.filter_cons]
    · simp only [Bool.not_eq_true] at hi2
      have hready : env.ready i = false := by
        rcases htrig with htrig | htrig
        · rw [htrig] at hi2; exact absurd hi2 (by simp)
        · exact htrig
      have hloop := probeLoop_first_timeout env (planEnum 0 (env.calls.take i)) i
        (env.calls.get ⟨i, hin⟩) (planEnum (i + 1) (env.calls.drop (i + 1))) false false
        hpre' hi2 hready
      have hpl1 : (probeLoop env (planEnum 0 env.calls) initSt).1 =
          ((env.calls.take i).map probeAddr) ++
            probeAddr (env.calls.get ⟨i, hin⟩) ::
              Action.printFailedToLaunch (env.calls.get ⟨i, hin⟩).command ::
                handlerActions env true := by
        simp only [initSt]
        rw [plan_decomp env.calls i hin, hloop, map_planEnum]
      rw [hpl1, List.filter_append, filter_map_self isProbe probeAddr (fun x => rfl),
        List.filter_cons, take_succ_get env.calls i hin probeAddr]
      simp [isProbe, probeAddr, List.filter_append, handler_filter_isProbe, List.filter_cons]

/-- Claim C6, witness at the all-quiet schedule over the three-service
sample plan: three process handles are created and the probe actions are
exactly the three probes in plan order. -/
theorem c6_witness :
    ((runDeploy (quietRun samplePlan)).trace.filter isSpawnAct).length = 3 ∧
      (runDeploy (quietRun samplePlan)).trace.filter isProbe = samplePlan.map probeAddr :=
  ⟨(c6_n_handles_then_ordered_probes (quietRun samplePlan) (fun _ _ => rfl)).1,
    (c6_n_handles_then_ordered_probes (quietRun samplePlan) (fun _ _ => rfl)).2.2.2.1
      (fun _ _ => ⟨rfl, rfl⟩)⟩

/-! ## Claim C7 -/

/-- All three services come up; an external SIGINT arrives while
`e.wait()` is blocking. -/
def c7Env : Env := { quietRun samplePlan with intrDuringWait := true }

/-- Claim C7, counterexample.  The claim states the shutdown procedure
*first* cancels any in-flight probe and only then sends the termination
requests.  In the run `c7Env` the handler's cascade sends the
termination request to process 0 strictly *before* the `future.cancel()`
call: in the source the loop sending `SIGINT` (lines 132-133) precedes
`future.cancel()` (lines 134-135). -/
theorem c7_counterexample :
    Action.sendSigint 0 ∈ (runDeploy c7Env).trace ∧
      Action.cancelFuture ∈ (runDeploy c7Env).trace ∧
      (runDeploy c7Env).trace.indexOf (Action.sendSigint 0) <
        (runDeploy c7Env).trace.indexOf Action.cancelFuture := by
  refine ⟨?_, ?_, ?_⟩ <;> decide

/-- Claim C7 (amended): on entry to shutdown the handler performs its
steps in this order: print the banner, *send a termination request to
every spawned process*, then *cancel the in-flight probe future*, and
only then wait for each output-relay listener, each join bounded by the
5-unit grace timeout, finally setting the event.  (The claimed
cancel-before-terminate order is reversed in the code; the join-last
part and the 5-unit bound are as claimed.)  The theorem exhibits the
full trace of a run in which all services became ready and a SIGINT
arrives during the final wait. -/
theorem c7_amended (env : Env)
    (hs : ∀ i, i < env.calls.length → env.spawnOk i = true)
    (hr : ∀ i, env.ready i = true) (hi : ∀ i, env.intrDuringProbe i = false)
    (hn : env.calls ≠ []) (hA : env.intrAfterLoop = false) (hW : env.intrDuringWait = true) :
    (runDeploy env).trace =
      spawnActsOf env ++ env.calls.map probeAddr ++ [Action.printDoneStarting] ++
        (Action.printShuttingDown ::
          ((List.range env.calls.length).map Action.sendSigint ++
            [Action.cancelFuture] ++
            (List.range env.calls.length).map
              (fun i => Action.joinRelay i 5 (env.relayFinishes i)) ++
            [Action.setEvent])) ++
        [Action.printDoneShuttingDown] := by
  have hokm : ∀ p ∈ planEnum 0 env.calls, env.spawnOk p.1 = true := by
    intro p hp; have hb := mem_planEnum env.calls 0 p hp; exact hs p.1 (by omega)
  have hok := spawnLoop_ok env (planEnum 0 env.calls) hokm
  have hpl := probeLoop_all_ready env (planEnum 0 env.calls) false false
    (fun p _ => ⟨hr p.1, hi p.1⟩)
  have hne : (planEnum 0 env.calls).isEmpty = false := by
    cases hc : env.calls
    · exact absurd hc hn
    · simp [planEnum]
  have hpl' : probeLoop env (planEnum 0 env.calls) initSt =
      ((planEnum 0 env.calls).map fun p => probeAddr p.2, ⟨false, true, false, false⟩) := by
    simp only [initSt]
    rw [hpl, hne]
    simp
  simp only [runDeploy, hok, if_true, hpl']
  simp [hA, hW, map_planEnum, spawnActsOf, handlerActions, List.append_assoc]

/-- Claim C7, witness for the amended theorem at the concrete schedule
`c7Env`. -/
theorem c7_witness :
    (runDeploy c7Env).trace =
      spawnActsOf c7Env ++ c7Env.calls.map probeAddr ++ [Action.printDoneStarting] ++
        (Action.printShuttingDown ::
          ((List.range c7Env.calls.length).map Action.sendSigint ++
            [Action.cancelFuture] ++
            (List.range c7Env.calls.length).map
              (fun i => Action.joinRelay i 5 (c7Env.relayFinishes i)) ++
            [Action.setEvent])) ++
        [Action.printDoneShuttingDown] :=
  c7_amended c7Env (fun _ _ => rfl) (fun _ => rfl) (fun _ => rfl) (by decide) rfl rfl

/-! ## Claim C8 -/

/-- One service that becomes ready; a SIGINT arrives during the final
wait, and the listener thread does not finish within its 5-unit join
grace period. -/
def c8Env : Env :=
  { quietRun [sentencesCall] with intrDuringWait := true, relayFinishes := fun _ => false }

/-- Claim C8, counterexample.  The claim states that a relay task
missing the 5-unit shutdown grace period is *logged as a soft failure*.
In the run `c8Env` the join of listener 0 times out (the `joinRelay`
action records that the listener had not finished), yet the complete
print output of the run is exactly the three standard banners — nothing
whatsoever is logged about the abandoned relay (the source calls
`listener.join(timeout=5)` and never checks or reports the outcome).
The non-fatality part of the claim is accurate: the exit status is
still 0. -/
theorem c8_counterexample :
    Action.joinRelay 0 5 false ∈ (runDeploy c8Env).trace ∧
      (runDeploy c8Env).trace.filter isPrint =
        [Action.printDoneStarting, Action.printShuttingDown, Action.printDoneShuttingDown] ∧
      (runDeploy c8Env).exit = ExitStatus.ok := by
  refine ⟨?_, ?_, ?_⟩ <;> decide

theorem runDeploy_relay_core (c : List ServiceCall) (s r ip : Nat → Bool) (a w : Bool)
    (f g : Nat → Bool) :
    (runDeploy ⟨c, s, r, ip, a, w, f⟩).exit = (runDeploy ⟨c, s, r, ip, a, w, g⟩).exit ∧
      (runDeploy ⟨c, s, r, ip, a, w, f⟩).trace.filter isPrint =
        (runDeploy ⟨c, s, r, ip, a, w, g⟩).trace.filter isPrint := by
  have hsl : spawnLoop ⟨c, s, r, ip, a, w, f⟩ (planEnum 0 c) =
      spawnLoop ⟨c, s, r, ip, a, w, g⟩ (planEnum 0 c) :=
    spawnLoop_relay_indep ⟨c, s, r, ip, a, w, g⟩ f (planEnum 0 c)
  have hplI : (probeLoop ⟨c, s, r, ip, a, w, f⟩ (planEnum 0 c) initSt).2 =
        (probeLoop ⟨c, s, r, ip, a, w, g⟩ (planEnum 0 c) initSt).2 ∧
      (probeLoop ⟨c, s, r, ip, a, w, f⟩ (planEnum 0 c) initSt).1.filter isPrint =
        (probeLoop ⟨c, s, r, ip, a, w, g⟩ (planEnum 0 c) initSt).1.filter isPrint :=
    probeLoop_relay_indep ⟨c, s, r, ip, a, w, g⟩ f (planEnum 0 c) initSt
  have hh : ∀ fs : Bool, (handlerActions ⟨c, s, r, ip, a, w, f⟩ fs).filter isPrint =
      (handlerActions ⟨c, s, r, ip, a, w, g⟩ fs).filter isPrint := by
    intro fs
    rw [handler_filter_isPrint, handler_filter_isPrint]
  by_cases hok : (spawnLoop ⟨c, s, r, ip, a, w, g⟩ (planEnum 0 c)).2 = true
  · by_cases hcr : (probeLoop ⟨c, s, r, ip, a, w, g⟩ (planEnum 0 c) initSt).2.crashed = true
    · constructor
      · simp only [runDeploy, hsl, hplI.1, hok, hcr, if_true]
      · simp only [runDeploy, hsl, hplI.1, hok, hcr, if_true]
        simp only [List.filter_append, hplI.2]
    · cases a
      · by_cases hE : (probeLoop ⟨c, s, r, ip, false, w, g⟩ (planEnum 0 c) initSt).2.eventSet = true
        · constructor
          · simp only [runDeploy, hsl, hplI.1, hok, hcr, hE, if_true, if_false,
              Bool.false_eq_true]
          · simp only [runDeploy, hsl, hplI.1, hok, hcr, hE, if_true, if_false,
              Bool.false_eq_true]
            simp only [List.filter_append, hplI.2]
        · cases w
          · constructor
            · simp only [runDeploy, hsl, hplI.1, hok, hcr, hE, if_true, if_false,
                Bool.false_eq_true]
            · simp only [runDeploy, hsl, hplI.1, hok, hcr, hE, if_true, if_false,
                Bool.false_eq_true]
              simp only [List.filter_append, hplI.2]
          · constructor
            · simp only [runDeploy, hsl, hplI.1, hok, hcr, hE, if_true, if_false,
                Bool.false_eq_true]
            · simp only [runDeploy, hsl, hplI.1, hok, hcr, hE, if_true, if_false,
                Bool.false_eq_true]
              simp only [List.filter_append, hplI.2, hh]
      · constructor
        · simp only [runDeploy, hsl, hplI.1, hok, hcr, if_true, if_false, Bool.false_eq_true]
        · simp only [runDeploy, hsl, hplI.1, hok, hcr, if_true, if_false, Bool.false_eq_true]
          simp only [List.filter_append, hplI.2, hh]
  · simp only [Bool.not_eq_true] at hok
    constructor
    · simp only [runDeploy, hsl, hok, Bool.false_eq_true, if_false]
    · simp only [runDeploy, hsl, hok, Bool.false_eq_true, if_false]

/-- Claim C8 (amended): a relay task that does not finish within the
5-unit shutdown grace period is abandoned *silently*: the supervisor
logs nothing about it, and the abandonment is non-fatal — neither the
exit status nor any printed line of the run depends in any way on which
listener threads finish within their grace period. -/
theorem c8_amended (env : Env) (f : Nat → Bool) :
    (runDeploy { env with relayFinishes := f }).exit = (runDeploy env).exit ∧
      (runDeploy { env with relayFinishes := f }).trace.filter isPrint =
        (runDeploy env).trace.filter isPrint := by
  obtain ⟨c, s, r, ip, a, w, g⟩ := env
  exact runDeploy_relay_core c s r ip a w f g

/-! ## Claim C9 -/

/-- Claim C9: the `shuttingDown` flag is monotonic.  The probe loop —
the only recursive state transformer of the run — preserves a set flag
no matter what the schedule does, and in every run that contains a
cascade (so the flag was set by some trigger) the final state of the run
still has the flag set: no operation of the supervisor, the interrupt
handler, or the shutdown path ever resets it to false. -/
theorem c9_shuttingDown_monotone :
    (∀ (env : Env) (l : List (Nat × ServiceCall)) (s : LoopSt),
        s.shuttingDown = true → (probeLoop env l s).2.shuttingDown = true) ∧
      (∀ env : Env, Action.printShuttingDown ∈ (runDeploy env).trace →
        (runDeploy env).final.shuttingDown = true) := by
  constructor
  · intro env l s h
    rw [probeLoop_shutdown env l s h]
    exact h
  · intro env hmem
    by_cases hok : (spawnLoop env (planEnum 0 env.calls)).2 = true
    · by_cases hcr : (probeLoop env (planEnum 0 env.calls) initSt).2.crashed = true
      · simp only [runDeploy, hok, if_true, hcr]
        exact probeLoop_crash_shutdown env _ initSt rfl hcr
      · by_cases hA : env.intrAfterLoop = true
        · by_cases hE : (probeLoop env (planEnum 0 env.calls) initSt).2.eventSet = true
          · simp [runDeploy, hok, hcr, hA, hE]
          · simp [runDeploy, hok, hcr, hA, hE]
        · simp only [Bool.not_eq_true] at hA
          by_cases hE : (probeLoop env (planEnum 0 env.calls) initSt).2.eventSet = true
          · simp only [runDeploy, hok, if_true, hcr, hA, hE, Bool.false_eq_true,
              if_false] at hmem ⊢
            simp only [List.mem_append, List.mem_cons, List.not_mem_nil, or_false,
              List.append_nil] at hmem
            rcases hmem with ((hmem | hmem) | hmem) | hmem
            · exact absurd hmem (spawnLoop_no_banner env _)
            · exact probeLoop_banner_shutdown env _ _ hmem
            · exact absurd hmem (by simp)
            · exact absurd hmem (by simp)
          · by_cases hW : env.intrDuringWait = true
            · simp [runDeploy, hok, hcr, hA, hE, hW]
            · simp only [Bool.not_eq_true] at hW
              simp only [runDeploy, hok, if_true, hcr, hA, hE, hW, Bool.false_eq_true,
                if_false] at hmem ⊢
              simp only [List.mem_append, List.mem_cons, List.not_mem_nil, or_false,
                List.append_nil] at hmem
              rcases hmem with (hmem | hmem) | hmem
              · exact absurd hmem (spawnLoop_no_banner env _)
              · exact probeLoop_banner_shutdown env _ _ hmem
              · exact absurd hmem (by simp)
    · simp only [Bool.not_eq_true] at hok
      simp only [runDeploy, hok, Bool.false_eq_true, if_false] at hmem
      exact absurd hmem (spawnLoop_no_banner env _)

/-- Claim C9, witness: the probe loop preserves a set flag on the empty
plan, and the concrete readiness-failure run `c1Env` (whose trace
contains a cascade) ends with the flag still set. -/
theorem c9_witness :
    (probeLoop (quietRun samplePlan) [] ⟨true, false, false, false⟩).2.shuttingDown = true ∧
      (runDeploy c1Env).final.shuttingDown = true :=
  ⟨c9_shuttingDown_monotone.1 (quietRun samplePlan) [] ⟨true, false, false, false⟩ rfl,
    c9_shuttingDown_monotone.2 c1Env (by decide)⟩

/-! ## Claim C10 -/

/-- Both services spawn; a SIGINT is delivered while the very first
readiness probe is in flight. -/
def c10Env : Env :=
  { quietRun [sentencesCall, taggerCall] with intrDuringProbe := fun i => i == 0 }

/-- Claim C10, counterexample.  The claim states that on *every* run in
which all processes spawn successfully, `Done starting all processors`
is printed after the probe loop.  In the run `c10Env` both processes
spawn successfully, but a SIGINT delivered during the first in-flight
probe makes the resumed `future.result()` raise an uncaught
cancellation error: the loop is aborted by the exception and neither
`Done starting all processors` nor `Done shutting down all processors`
is ever printed; `deploy` exits abnormally. -/
theorem c10_counterexample :
    Action.spawn 0 ∈ (runDeploy c10Env).trace ∧
      Action.spawn 1 ∈ (runDeploy c10Env).trace ∧
      Action.startRelay 1 ∈ (runDeploy c10Env).trace ∧
      Action.printDoneStarting ∉ (runDeploy c10Env).trace ∧
      (runDeploy c10Env).exit = ExitStatus.exn := by
  refine ⟨?_, ?_, ?_, ?_, ?_⟩ <;> decide

/-- Claim C10 (amended): on every run in which all processes spawn
successfully *and no interrupt arrives during an in-flight probe*, the
supervisor prints `Done starting all processors` after the probe loop
finishes — also when a readiness timeout already triggered shutdown —
and then `Done shutting down all processors` is printed exactly in the
runs that get past the event wait (exit status 0); a run that blocks
forever in `e.wait()` never prints it. -/
theorem c10_amended (env : Env)
    (hs : ∀ i, i < env.calls.length → env.spawnOk i = true)
    (hi : ∀ i, env.intrDuringProbe i = false) :
    Action.printDoneStarting ∈ (runDeploy env).trace ∧
      ((runDeploy env).exit = ExitStatus.ok ∨ (runDeploy env).exit = ExitStatus.blocked) ∧
      ((runDeploy env).exit = ExitStatus.ok ↔
        Action.printDoneShuttingDown ∈ (runDeploy env).trace) := by
  have hokm : ∀ p ∈ planEnum 0 env.calls, env.spawnOk p.1 = true := by
    intro p hp; have hb := mem_planEnum env.calls 0 p hp; exact hs p.1 (by omega)
  have hok : (spawnLoop env (planEnum 0 env.calls)).2 = true := by
    rw [spawnLoop_ok env _ hokm]
  have hcr : (probeLoop env (planEnum 0 env.calls) initSt).2.crashed = false :=
    probeLoop_no_crash env _ initSt (fun p _ => hi p.1) rfl
  have hnoDS := probeLoop_no_doneShuttingDown env (planEnum 0 env.calls) initSt
  have hnoDSsp := spawnLoop_no_doneShuttingDown env (planEnum 0 env.calls)
  by_cases hA : env.intrAfterLoop = true
  · refine ⟨?_, ?_, ?_⟩ <;>
      simp [runDeploy, hok, hcr, hA]
  · simp only [Bool.not_eq_true] at hA
    by_cases hE : (probeLoop env (planEnum 0 env.calls) initSt).2.eventSet = true
    · refine ⟨?_, ?_, ?_⟩ <;> simp [runDeploy, hok, hcr, hA, hE]
    · by_cases hW : env.intrDuringWait = true
      · refine ⟨?_, ?_, ?_⟩ <;> simp [runDeploy, hok, hcr, hA, hE, hW]
      · simp only [Bool.not_eq_true] at hW
        refine ⟨?_, ?_, ?_⟩
        · simp [runDeploy, hok, hcr, hA, hE, hW]
        · simp [runDeploy, hok, hcr, hA, hE, hW]
        · simp only [runDeploy, hok, if_true, hcr, hA, hE, hW, Bool.false_eq_true, if_false]
          constructor
          · intro hx
            exact absurd hx (by simp)
          · intro hmem
            simp only [List.mem_append, List.mem_cons, List.not_mem_nil, or_false,
              List.append_nil] at hmem
            rcases hmem with (hmem | hmem) | hmem
            · exact absurd hmem hnoDSsp
            · exact absurd hmem hnoDS
            · exact absurd hmem (by simp)

/-- Claim C10, witness for the amended theorem at the all-quiet schedule
over the sample plan (the run blocks in the steady state, so the final
banner is never printed). -/
theorem c10_witness :
    Action.printDoneStarting ∈ (runDeploy (quietRun samplePlan)).trace ∧
      ((runDeploy (quietRun samplePlan)).exit = ExitStatus.ok ∨
        (runDeploy (quietRun samplePlan)).exit = ExitStatus.blocked) ∧
      ((runDeploy (quietRun samplePlan)).exit = ExitStatus.ok ↔
        Action.printDoneShuttingDown ∈ (runDeploy (quietRun samplePlan)).trace) :=
  c10_amended (quietRun samplePlan) (fun _ _ => rfl) (fun _ => rfl)

end DeployBiomedicus
